import Mathlib

/-!
Verification of the Z2api Go reverse proxy (src/unnamed/part_001, `main.go`).

The development embeds, at the level of pure functions over `List Char` /
`String`, the parts of the program the claims are about:

* `transformThinking` — the pure thinking-content rewriter (Go
  `transformThinking`, lines 487-509).  Go `regexp`/`strings` operations on
  the concrete literal patterns are embedded as character-list scanners with
  an explicit skip counter (left-to-right, non-overlapping, leftmost match,
  replacement text not rescanned — exactly the semantics of
  `regexp.ReplaceAllString` / `strings.ReplaceAll` on these patterns).
* `processStreamLine`, `runLines`, `handleStreamResponse` — the streaming
  translator (lines 904-1150).  An upstream line is modelled after trimming
  and `data: ` prefix handling and JSON parsing as an `UpLine`; emitted SSE
  frames are modelled as an abstract `Frame` list (one `Frame` per
  `data: <json>\n\n` write, `Frame.doneMarker` for the `data: [DONE]\n\n`
  write, `Frame.thinkFlush` for the chunk written by `sendThinkContentSafe`,
  whose wire form is a content chunk wrapping the buffer in
  `<think>...</think>`).
* `handleNonStreamResponse` — the aggregator (lines 826-901).
* `chatHandlerCounterDeltas` — the per-path counter updates of `chatHandler`
  (lines 666-823).
* `sleepsBeforeAttempt` — the delay schedule of `requestWithRetry`
  (lines 512-594) and `randomDelay` (lines 326-331).
* `GateStep`/`GateReach` — an interleaving transition system for
  `concurrencyControlMiddleware` (lines 1194-1209).
-/

/-! ## Character-level string operations

Strings are handled through their underlying `List Char`.  `goIsSpace`
covers the white-space characters relevant to Go `strings.TrimSpace`
(`unicode.IsSpace`) for Latin-1 input. -/

def goIsSpace (c : Char) : Bool :=
  c = ' ' || c = '\t' || c = '\n' || c = '\r' || c = '\x0b' || c = '\x0c' ||
    c = '\u0085' || c = '\u00A0'

/-- Drop white space from the end of a character list (`strings.TrimRight`). -/
def rdropSpace (l : List Char) : List Char :=
  (l.reverse.dropWhile goIsSpace).reverse

/-- Go `strings.TrimSpace` on the character list. -/
def trimSpace (l : List Char) : List Char :=
  rdropSpace (l.dropWhile goIsSpace)

/-- Does `pat` occur as a contiguous substring of `l`?  (Go
`strings.Contains`, for a non-empty `pat`.) -/
def occurs (pat : List Char) : List Char → Bool
  | [] => false
  | c :: cs => pat.isPrefixOf (c :: cs) || occurs pat cs

/-- Number of characters of `l` up to and including the end of the first
occurrence of `pat`, if `pat` occurs in `l`. -/
def idxAfter (pat : List Char) : List Char → Option Nat
  | [] => none
  | c :: cs =>
    if pat.isPrefixOf (c :: cs) then some pat.length
    else (idxAfter pat cs).map (· + 1)

/-- Number of characters of `l` up to and including the first `'>'`. -/
def idxAfterGt : List Char → Option Nat
  | [] => none
  | c :: cs => if c = '>' then some 1 else (idxAfterGt cs).map (· + 1)

/-- Worker for `replaceAllL`: while `skip > 0` the characters belong to an
already-matched occurrence and are consumed silently; at `skip = 0` the
scanner looks for the next occurrence of `pat`. -/
def replaceAllAux (pat rep : List Char) : Nat → List Char → List Char
  | _ + 1, [] => []
  | skip + 1, _ :: cs => replaceAllAux pat rep skip cs
  | 0, [] => []
  | 0, c :: cs =>
    if pat.isPrefixOf (c :: cs) then
      rep ++ replaceAllAux pat rep (pat.length - 1) cs
    else c :: replaceAllAux pat rep 0 cs

/-- Go `strings.ReplaceAll l pat rep` (left-to-right, non-overlapping,
replacement not rescanned), for non-empty `pat`. -/
def replaceAllL (pat rep l : List Char) : List Char :=
  replaceAllAux pat rep 0 l

/-- Worker for `removeSummaryL`.  On `<summary>` with a later `</summary>`,
the whole span through the end of the first `</summary>` is consumed;
a `<summary>` with no close after it does not match (Go regexp
`(?s)<summary>.*?</summary>`, non-greedy, leftmost). -/
def removeSummaryAux : Nat → List Char → List Char
  | _ + 1, [] => []
  | skip + 1, _ :: cs => removeSummaryAux skip cs
  | 0, [] => []
  | 0, c :: cs =>
    if ("<summary>".data).isPrefixOf (c :: cs) then
      match idxAfter ("</summary>".data) (cs.drop 8) with
      | some n => removeSummaryAux (8 + n) cs
      | none => c :: removeSummaryAux 0 cs
    else c :: removeSummaryAux 0 cs

/-- Go `regexp.MustCompile("(?s)<summary>.*?</summary>").ReplaceAllString l ""`. -/
def removeSummaryL (l : List Char) : List Char :=
  removeSummaryAux 0 l

/-- Worker for `replaceDetailsOpenL`.  A match is `<details` followed by any
characters other than `'>'` and then `'>'` — i.e. `<details` with a later
`'>'`, consumed through the first `'>'`. -/
def replaceDetailsAux (rep : List Char) : Nat → List Char → List Char
  | _ + 1, [] => []
  | skip + 1, _ :: cs => replaceDetailsAux rep skip cs
  | 0, [] => []
  | 0, c :: cs =>
    if ("<details".data).isPrefixOf (c :: cs) then
      match idxAfterGt (cs.drop 7) with
      | some n => rep ++ replaceDetailsAux rep (7 + n) cs
      | none => c :: replaceDetailsAux rep 0 cs
    else c :: replaceDetailsAux rep 0 cs

/-- Go `regexp.MustCompile("<details[^>]*>").ReplaceAllString l rep`. -/
def replaceDetailsOpenL (rep l : List Char) : List Char :=
  replaceDetailsAux rep 0 l

/-- Go `strings.TrimPrefix` on character lists. -/
def trimPrefixL (pat l : List Char) : List Char :=
  if pat.isPrefixOf l then l.drop pat.length else l

/-- Worker for `splitOnL`; `acc` holds the current part reversed. -/
def splitOnAux (pat : List Char) : Nat → List Char → List Char → List (List Char)
  | _ + 1, acc, [] => [acc.reverse]
  | skip + 1, acc, _ :: cs => splitOnAux pat skip acc cs
  | 0, acc, [] => [acc.reverse]
  | 0, acc, c :: cs =>
    if pat.isPrefixOf (c :: cs) then
      acc.reverse :: splitOnAux pat (pat.length - 1) [] cs
    else splitOnAux pat 0 (c :: acc) cs

/-- Go `regexp.MustCompile(pat).Split(l, -1)` for the literal pattern `pat`
(non-empty): the parts of `l` between non-overlapping occurrences of `pat`. -/
def splitOnL (pat l : List Char) : List (List Char) :=
  splitOnAux pat 0 [] l

/-! ## The thinking transformer

`transformThinking` embeds Go `transformThinking` (part_001 lines 487-509):
remove `<summary>...</summary>` spans, delete the literals `</thinking>`,
`<Full>`, `</Full>`, trim, rewrite or strip `<details...>` / `</details>`
according to `thinkTagsMode`, strip one leading `"> "`, rewrite `"\n> "` to
`"\n"`, and trim again.  The global `thinkTagsMode` is passed as the `mode`
argument. -/

def transformThinkingL (mode : String) (l : List Char) : List Char :=
  let s1 := removeSummaryL l
  let s2 := replaceAllL ("</thinking>".data) [] s1
  let s3 := replaceAllL ("<Full>".data) [] s2
  let s4 := replaceAllL ("</Full>".data) [] s3
  let s5 := trimSpace s4
  let s6 :=
    if mode = "think" then
      replaceAllL ("</details>".data) ("</think>".data)
        (replaceDetailsOpenL ("<think>".data) s5)
    else if mode = "strip" then
      replaceAllL ("</details>".data) [] (replaceDetailsOpenL [] s5)
    else s5
  let s7 := trimPrefixL ("> ".data) s6
  let s8 := replaceAllL ("\n> ".data) ("\n".data) s7
  trimSpace s8

/-- Go `transformThinking` lifted to `String`. -/
def transformThinking (mode : String) (s : String) : String :=
  String.mk (transformThinkingL mode s.data)

example : transformThinking "think"
    "<summary>s</summary><details open>reason</details>" = "<think>reason</think>" := by decide
example : transformThinking "strip" "> a\n> b</thinking>" = "a\nb" := by decide
example : transformThinking "raw" "  hi  " = "hi" := by decide

/-! ## Upstream event model

`UpstreamData` mirrors the Go struct of the same name (part_001 lines
95-114): the parsed body of one upstream `data:` line.  `UpLine` models one
upstream line as seen by `processStreamLine` after trimming, `data: `
prefix handling and JSON parsing: a line without the `data: ` prefix, the
`[DONE]` sentinel, an empty payload, an unparseable payload, or a parsed
event. -/

structure UpstreamError where
  detail : String
  code : Int
deriving DecidableEq

structure UpstreamInner where
  error : Option UpstreamError
deriving DecidableEq

structure UpstreamDataData where
  deltaContent : String
  editContent : String
  phase : String
  done : Bool
  error : Option UpstreamError
  inner : Option UpstreamInner
deriving DecidableEq

structure UpstreamData where
  type : String
  data : UpstreamDataData
  error : Option UpstreamError
deriving DecidableEq

/-- The Go error check `upstreamData.Error != nil || upstreamData.Data.Error
!= nil || (upstreamData.Data.Inner != nil && upstreamData.Data.Inner.Error
!= nil)` (lines 1053-1054). -/
def hasUpstreamError (u : UpstreamData) : Bool :=
  u.error.isSome || u.data.error.isSome ||
    (match u.data.inner with
     | some inner => inner.error.isSome
     | none => false)

inductive UpLine where
  | notData (raw : String)
  | doneSentinel
  | emptyData
  | malformed (raw : String)
  | event (u : UpstreamData)
deriving DecidableEq

/-! ## Emitted frame model

One `Frame` per client write: `Frame.chunk` for `writeSSEChunk` of an
OpenAI chunk carrying a `Delta` and optional finish reason,
`Frame.doneMarker` for the literal write of `data: [DONE]\n\n`, and
`Frame.thinkFlush s` for the chunk written by `sendThinkContentSafe s`
(lines 1172-1191), whose wire form is a content chunk whose content is
`"<think>" + s + "</think>"`. -/

structure Delta where
  role : String
  content : String
  reasoningContent : String
deriving DecidableEq

def emptyDelta : Delta := ⟨"", "", ""⟩
def roleDelta : Delta := ⟨"assistant", "", ""⟩
def contentDelta (s : String) : Delta := ⟨"", s, ""⟩
def reasoningDelta (s : String) : Delta := ⟨"", "", s⟩

inductive Frame where
  | chunk (delta : Delta) (finishReason : Option String)
  | doneMarker
  | thinkFlush (content : String)
deriving DecidableEq

/-- The finish chunk: empty delta, `finish_reason: "stop"`. -/
def finishChunk : Frame := Frame.chunk emptyDelta (some "stop")

/-- The opener chunk sent before the read loop (lines 921-934): a delta with
`role: "assistant"` and no content. -/
def openerFrame : Frame := Frame.chunk roleDelta none

/-- The local translator state of `handleStreamResponse`
(lines 937-943). -/
structure TranslatorState where
  isInThinkBlock : Bool
  bufferedThinkContent : String
  streamClosed : Bool
  sentInitialAnswer : Bool
deriving DecidableEq

def initialTranslatorState : TranslatorState := ⟨false, "", false, false⟩

/-- The initial-answer splice of `processStreamLine` (lines 1070-1092):
if the initial answer was not yet sent and the event carries non-empty
`edit_content` in the answer phase, split the edit content on
`</details>`; if that yields more than one part and the part after the
first `</details>` is non-empty, emit it as one content chunk and latch
`sentInitialAnswer`.  Returns the emitted frames and the new
`sentInitialAnswer` value. -/
def spliceResult (st : TranslatorState) (u : UpstreamData) : List Frame × Bool :=
  if ¬ st.sentInitialAnswer ∧ u.data.editContent ≠ "" ∧ u.data.phase = "answer" then
    let parts := splitOnL ("</details>".data) u.data.editContent.data
    if 1 < parts.length then
      let content := String.mk (parts.getD 1 [])
      if content ≠ "" then
        ([Frame.chunk (contentDelta content) none], true)
      else ([], st.sentInitialAnswer)
    else ([], st.sentInitialAnswer)
  else ([], st.sentInitialAnswer)

/-- The delta emission of `processStreamLine` (lines 1094-1126): on
non-empty `delta_content`, the thinking phase emits the transformed delta
as `reasoning_content` (when non-empty), any other phase emits the delta
unchanged as `content`. -/
def deltaFramesOf (mode : String) (u : UpstreamData) : List Frame :=
  if u.data.deltaContent ≠ "" then
    if u.data.phase = "thinking" then
      let out := transformThinking mode u.data.deltaContent
      if out ≠ "" then [Frame.chunk (reasoningDelta out) none] else []
    else
      if u.data.deltaContent ≠ "" then
        [Frame.chunk (contentDelta u.data.deltaContent) none]
      else []
  else []

/-- The done detection of `processStreamLine` (line 1129):
`upstreamData.Data.Done || upstreamData.Data.Phase == "done"`. -/
def endedOf (u : UpstreamData) : Bool :=
  u.data.done || (u.data.phase == "done")

/-- The finish chunk plus `[DONE]` emitted on done detection
(lines 1130-1146). -/
def endFramesOf (u : UpstreamData) : List Frame :=
  if endedOf u then [finishChunk, Frame.doneMarker] else []

/-- Go `processStreamLine` (lines 1025-1150) as a pure transition: one
upstream line, the translator state, and the frames written in order. -/
def processStreamLine (mode : String) (st : TranslatorState) (l : UpLine) :
    TranslatorState × List Frame :=
  match l with
  | .notData _ => (st, [])
  | .emptyData => (st, [])
  | .malformed _ => (st, [])
  | .doneSentinel =>
    let flush :=
      if st.isInThinkBlock ∧ st.bufferedThinkContent ≠ "" then
        [Frame.thinkFlush st.bufferedThinkContent]
      else []
    ({ st with streamClosed := true }, flush ++ [Frame.doneMarker])
  | .event u =>
    if hasUpstreamError u then
      ({ st with streamClosed := true }, [finishChunk, Frame.doneMarker])
    else
      ({ st with sentInitialAnswer := (spliceResult st u).2,
                 streamClosed := st.streamClosed || endedOf u },
       (spliceResult st u).1 ++ deltaFramesOf mode u ++ endFramesOf u)

/-- The read loop of `handleStreamResponse` (lines 947-1002) at line
granularity: complete lines are processed in order while the stream is not
closed; once `streamClosed` is set no further line is processed.  The
trailing partial line processed at EOF (lines 993-997) is the final list
element. -/
def runLines (mode : String) (st : TranslatorState) :
    List UpLine → TranslatorState × List Frame
  | [] => (st, [])
  | l :: ls =>
    if st.streamClosed then (st, [])
    else
      let step := processStreamLine mode st l
      let rest := runLines mode step.1 ls
      (rest.1, step.2 ++ rest.2)

/-- Go `handleStreamResponse` (lines 904-1010): opener chunk, the read
loop, and the post-loop buffered-thinking flush (lines 1005-1007). -/
def handleStreamResponse (mode : String) (lines : List UpLine) : List Frame :=
  let run := runLines mode initialTranslatorState lines
  let post :=
    if run.1.isInThinkBlock ∧ run.1.bufferedThinkContent ≠ "" then
      [Frame.thinkFlush run.1.bufferedThinkContent]
    else []
  openerFrame :: (run.2 ++ post)

/-! ## Non-streaming aggregation -/

/-- One accumulation step of `handleNonStreamResponse` (lines 849-857):
on non-empty delta content, transform it on the thinking phase and append
the (non-empty) result to the accumulator. -/
def collectStep (mode acc : String) (u : UpstreamData) : String :=
  if u.data.deltaContent ≠ "" then
    let out :=
      if u.data.phase = "thinking" then
        transformThinking mode u.data.deltaContent
      else u.data.deltaContent
    if out ≠ "" then acc ++ out else acc
  else acc

/-- The collection loop of `handleNonStreamResponse` (lines 833-863):
accumulate delta content (transformed on the thinking phase), stop on a
done signal (`done` flag or `done` phase, line 859); `[DONE]`, empty
payloads, non-`data:` lines and parse failures are skipped.  Note the
non-streaming path performs no error-field check. -/
def collectContent (mode acc : String) : List UpLine → String
  | [] => acc
  | l :: ls =>
    match l with
    | .event u =>
      if endedOf u then collectStep mode acc u
      else collectContent mode (collectStep mode acc u) ls
    | _ => collectContent mode acc ls

/-- The single choice of the non-streaming `OpenAIResponse`
(lines 875-895): role `assistant`, the accumulated content, finish reason
`stop`. -/
structure NonStreamChoice where
  role : String
  content : String
  finishReason : String
deriving DecidableEq

/-- Go `handleNonStreamResponse` (lines 826-901), projected to the message
of `choices[0]`. -/
def handleNonStreamResponse (mode : String) (lines : List UpLine) : NonStreamChoice :=
  ⟨"assistant", collectContent mode "" lines, "stop"⟩

/-! ## Frame measurements -/

/-- Is this frame the `data: [DONE]\n\n` write? -/
def isDoneMarker : Frame → Bool
  | Frame.doneMarker => true
  | _ => false

/-- Is this frame a buffered-thinking flush chunk? -/
def isThinkFlush : Frame → Bool
  | Frame.thinkFlush _ => true
  | _ => false

/-- Number of `data: [DONE]\n\n` writes in a frame list. -/
def countDone (fs : List Frame) : Nat := fs.countP isDoneMarker

/-- Number of buffered-thinking flush chunks in a frame list. -/
def countThinkFlush (fs : List Frame) : Nat := fs.countP isThinkFlush

/-- The `choices[0].delta.content` carried by one frame on the wire:
chunks carry their delta content, the `[DONE]` marker carries none, and the
think-flush chunk carries the wrapped buffer. -/
def frameDeltaContent : Frame → String
  | .chunk d _ => d.content
  | .doneMarker => ""
  | .thinkFlush s => "<think>" ++ s ++ "</think>"

/-- Concatenation of `choices[0].delta.content` over a frame list. -/
def concatFrames : List Frame → String
  | [] => ""
  | f :: fs => frameDeltaContent f ++ concatFrames fs

/-- Concatenation of a list of strings in order. -/
def concatAll : List String → String
  | [] => ""
  | s :: ss => s ++ concatAll ss

/-! ## Synthesized answer-only upstream stream (claim C4 input) -/

/-- An upstream event with `phase: "answer"`, the given `delta_content`,
and no other payload. -/
def answerEvent (d : String) : UpstreamData :=
  ⟨"chat:completion", ⟨d, "", "answer", false, none, none⟩, none⟩

/-- A synthesized upstream SSE: `phase: "answer"` deltas `ds` followed by
the `[DONE]` sentinel. -/
def answerLines (ds : List String) : List UpLine :=
  ds.map (fun d => UpLine.event (answerEvent d)) ++ [UpLine.doneSentinel]

/-! ## Counter updates of `chatHandler` (claim C2)

`chatHandler` (lines 666-823) increments `requestCount` once on entry
(line 668).  The four counters are touched on the following paths:

* body read failure (lines 677-682): `errorCount` + 1, respond 400;
* bad API key (lines 690-698): `errorCount` + 1, respond 401;
* malformed JSON (lines 704-712): `errorCount` + 1, respond 400;
* upstream dispatch failure (lines 797-814): `errorCount` + 1 and
  `totalResponseTime` + elapsed, respond 502;
* non-streaming success: `handleNonStreamResponse` adds elapsed to
  `totalResponseTime` (lines 868-869), respond 200;
* streaming success: `handleStreamResponse` touches no counter, respond 200.
-/

inductive HandlerPath where
  | bodyReadError
  | unauthorized
  | badJson
  | upstreamFailure
  | nonStream
  | stream
deriving DecidableEq

/-- HTTP status written on each path of `chatHandler`. -/
def responseStatus : HandlerPath → Nat
  | .bodyReadError => 400
  | .unauthorized => 401
  | .badJson => 400
  | .upstreamFailure => 502
  | .nonStream => 200
  | .stream => 200

structure CounterDeltas where
  totalRequests : Nat
  errorCount : Nat
  totalResponseMs : Nat
deriving DecidableEq

/-- Net effect of one accepted request on the three monotonic counters,
per `chatHandler` path, with `elapsedMs` the observed elapsed
milliseconds. -/
def chatHandlerCounterDeltas (p : HandlerPath) (elapsedMs : Nat) : CounterDeltas :=
  match p with
  | .bodyReadError => ⟨1, 1, 0⟩
  | .unauthorized => ⟨1, 1, 0⟩
  | .badJson => ⟨1, 1, 0⟩
  | .upstreamFailure => ⟨1, 1, elapsedMs⟩
  | .nonStream => ⟨1, 0, elapsedMs⟩
  | .stream => ⟨1, 0, 0⟩

/-! ## Delay schedule of `requestWithRetry` (claim C3)

The retry loop (lines 520-588) runs over loop index `i = 0 .. maxRetries-1`
(attempt number `i + 1`).  For `i > 0` it sleeps
`retryDelay * 2^i` milliseconds (line 523), and then — on every iteration,
including `i = 0` — calls `randomDelay()` (line 531), which sleeps
`mathrand.Intn(randomDelayMax-randomDelayMin) + randomDelayMin`
milliseconds when `randomDelayMax > randomDelayMin` and nothing otherwise
(lines 326-331).  `mathrand.Intn n` is modelled as `r % n` for an
arbitrary draw `r`, covering exactly the values `0 .. n-1`. -/

/-- The backoff sleep before loop iteration `i` (line 523). -/
def backoffSleep (retryDelay i : Nat) : List Nat :=
  if 0 < i then [retryDelay * 2 ^ i] else []

/-- Go `randomDelay()` (lines 326-331) with draw `r`. -/
def randomDelaySleep (jmin jmax r : Nat) : List Nat :=
  if jmin < jmax then [jmin + r % (jmax - jmin)] else []

/-- All sleeps before the attempt at loop index `i`, in order. -/
def sleepsBeforeLoopIter (retryDelay jmin jmax r i : Nat) : List Nat :=
  backoffSleep retryDelay i ++ randomDelaySleep jmin jmax r

/-- All sleeps before attempt number `k` (1-based, `k = i + 1`). -/
def sleepsBeforeAttempt (retryDelay jmin jmax r k : Nat) : List Nat :=
  sleepsBeforeLoopIter retryDelay jmin jmax r (k - 1)

/-! ## Admission gate transition system (claim C7)

`concurrencyControlMiddleware` (lines 1194-1209) runs, per accepted
request, the four atomic actions in this order:

1. non-blocking send on `connectionSemaphore` (capacity
   `maxConcurrentConnections`), which succeeds only while the channel holds
   fewer than `cap` tokens;
2. `atomic.AddInt64(&currentConnections, 1)`;
3. (deferred, after the handler) receive from `connectionSemaphore`;
4. `atomic.AddInt64(&currentConnections, -1)`.

Goroutines interleave arbitrarily between consecutive actions.  The state
counts the goroutines between actions 1-2 (`nAcquired`), 2-3 (`nCounted`)
and 3-4 (`nReleased`), plus the channel occupancy `sem` and the counter
`conn`. -/

structure GateState where
  nAcquired : Nat
  nCounted : Nat
  nReleased : Nat
  sem : Nat
  conn : Nat
deriving DecidableEq

/-- One atomic action of some goroutine in the admission middleware. -/
inductive GateStep (cap : Nat) : GateState → GateState → Prop where
  | acquire (s : GateState) (h : s.sem < cap) :
      GateStep cap s ⟨s.nAcquired + 1, s.nCounted, s.nReleased, s.sem + 1, s.conn⟩
  | incrConn (a c r sem conn : Nat) :
      GateStep cap ⟨a + 1, c, r, sem, conn⟩ ⟨a, c + 1, r, sem, conn + 1⟩
  | releaseSem (a c r sem conn : Nat) :
      GateStep cap ⟨a, c + 1, r, sem + 1, conn⟩ ⟨a, c, r + 1, sem, conn⟩
  | decrConn (a c r sem conn : Nat) :
      GateStep cap ⟨a, c, r + 1, sem, conn + 1⟩ ⟨a, c, r, sem, conn⟩

/-- States reachable from the idle system by any interleaving. -/
inductive GateReach (cap : Nat) : GateState → Prop where
  | init : GateReach cap ⟨0, 0, 0, 0, 0⟩
  | step (s s' : GateState) (hr : GateReach cap s) (hs : GateStep cap s s') :
      GateReach cap s'

/-! ## Upstream request construction (claim C10)

The model-flag selection and `UpstreamRequest` construction of
`chatHandler` (lines 720-766). -/

def defaultModelName : String := "GLM-4.5"
def thinkingModelName : String := "GLM-4.5-Thinking"
def searchModelName : String := "GLM-4.5-Search"

structure ChatMessage where
  role : String
  content : String
  reasoningContent : String
deriving DecidableEq

/-- The flag block of lines 720-729: `(isThinking, isSearch, searchMcp)`.
`searchMcp` stays the empty string except for the search model. -/
def modelFlags (model : String) : Bool × Bool × String :=
  if model = thinkingModelName then (true, false, "")
  else if model = searchModelName then (true, true, "deep-web-search")
  else (false, false, "")

structure UpstreamFeatures where
  enableThinking : Bool
  webSearch : Bool
  autoWebSearch : Bool
deriving DecidableEq

structure UpstreamModelItem where
  id : String
  name : String
  ownedBy : String
deriving DecidableEq

structure UpstreamRequest where
  stream : Bool
  model : String
  messages : List ChatMessage
  features : UpstreamFeatures
  titleGeneration : Bool
  tagsGeneration : Bool
  chatID : String
  id : String
  mcpServers : List String
  modelItem : UpstreamModelItem
  toolServers : List String
  userName : String
  userLocation : String
  currentDatetime : String
deriving DecidableEq

/-- The `UpstreamRequest` literal of lines 740-766. -/
def buildUpstreamRequest (model chatID msgID datetime : String)
    (messages : List ChatMessage) : UpstreamRequest :=
  let flags := modelFlags model
  { stream := true
    chatID := chatID
    id := msgID
    model := "0727-360B-API"
    messages := messages
    features := ⟨flags.1, flags.2.1, flags.2.1⟩
    titleGeneration := false
    tagsGeneration := false
    mcpServers := [flags.2.2]
    toolServers := []
    modelItem := ⟨"0727-360B-API", "GLM-4.5", "openai"⟩
    userName := "User"
    userLocation := "Unknown"
    currentDatetime := datetime }

/-! ## Claims C2, C3 — counters and retry pacing -/

/-- Claim C2, counterexample: on the 401 path with 5 observed
milliseconds the claim predicts counter deltas `(1, 1, 5)` — in
particular `total_response_ms += observed_ms` — but `chatHandler` leaves
`totalResponseTime` untouched on that path. -/
theorem claim_C2_counterexample :
    chatHandlerCounterDeltas HandlerPath.unauthorized 5 ≠
      ⟨1, if 400 ≤ responseStatus HandlerPath.unauthorized then 1 else 0, 5⟩ := by
  decide

/-- Claim C2 (amended): for every accepted request the counter deltas are
`total_requests += 1` and `error_count += (status >= 400 ? 1 : 0)` on all
paths, but `total_response_ms += observed_ms` only on the
upstream-dispatch-failure (502) path and the non-streaming path; on the
400/401 error paths and the streaming path `total_response_ms` is
unchanged. -/
theorem claim_C2_amended (p : HandlerPath) (ms : Nat) :
    chatHandlerCounterDeltas p ms =
      ⟨1, if 400 ≤ responseStatus p then 1 else 0,
        if p = HandlerPath.upstreamFailure ∨ p = HandlerPath.nonStream then ms else 0⟩ := by
  cases p <;> rfl

/-- Claim C3, counterexample: with `retry_base_delay_ms = 1`,
`jitter_min_ms = 3`, `jitter_max_ms = 5` and jitter draw 0, the first
attempt is preceded by a (jitter) sleep, contradicting "no extra delay
precedes the first attempt". -/
theorem claim_C3_counterexample : sleepsBeforeAttempt 1 3 5 0 1 ≠ [] := by
  decide

/-- Claim C3 (amended): before attempt `k` (1-based) the dispatcher sleeps
`retry_base_delay_ms * 2^(k-1)` only for `k ≥ 2`, and then — before every
attempt, including the first — sleeps `jitter_min + draw % (jitter_max -
jitter_min)` when `jitter_max > jitter_min` (a value in the half-open
interval `[jitter_min, jitter_max)`, not the closed interval), and nothing
when `jitter_max ≤ jitter_min`. -/
theorem claim_C3_amended (rd jmin jmax r k : Nat) (hk : 1 ≤ k) :
    sleepsBeforeAttempt rd jmin jmax r k =
      (if 2 ≤ k then [rd * 2 ^ (k - 1)] else []) ++
        (if jmin < jmax then [jmin + r % (jmax - jmin)] else []) ∧
    (jmin < jmax →
      jmin ≤ jmin + r % (jmax - jmin) ∧ jmin + r % (jmax - jmin) < jmax) := by
  constructor
  · unfold sleepsBeforeAttempt sleepsBeforeLoopIter backoffSleep randomDelaySleep
    by_cases h2 : 2 ≤ k
    · rw [if_pos (show 0 < k - 1 by omega), if_pos h2]
    · rw [if_neg (show ¬ 0 < k - 1 by omega), if_neg h2]
  · intro h
    have hm := Nat.mod_lt r (show 0 < jmax - jmin by omega)
    omega

/-- Witness for claim C3 (amended) at attempt 2 with base delay 1 and
jitter range `[3, 5)`, draw 0. -/
theorem claim_C3_witness : sleepsBeforeAttempt 1 3 5 0 2 = [2, 3] := by
  rw [(claim_C3_amended 1 3 5 0 2 (by decide)).1]
  decide

/-! ## Claim C6 — the opener chunk -/

/-- Claim C6: for every streaming response the very first frame emitted is
the opener chunk, whose delta has role `assistant` and no content and no
reasoning content and no finish reason; it therefore precedes every
content, reasoning and finish chunk. -/
theorem claim_C6 (mode : String) (lines : List UpLine) :
    (handleStreamResponse mode lines).head? =
      some (Frame.chunk (Delta.mk "assistant" "" "") none) := rfl

/-! ## Claim C7 — the admission gate -/

/-- Structural invariant of the admission gate: the channel occupancy
counts the goroutines between semaphore send and counter increment plus
those between increment and semaphore receive, the connection counter
counts those between increment and decrement, and occupancy never exceeds
capacity. -/
lemma gateReach_inv {cap : Nat} {s : GateState} (h : GateReach cap s) :
    s.sem = s.nAcquired + s.nCounted ∧ s.conn = s.nCounted + s.nReleased ∧
      s.sem ≤ cap := by
  induction h with
  | init => exact ⟨rfl, rfl, Nat.zero_le _⟩
  | step s s' hr hs ih =>
    obtain ⟨h1, h2, h3⟩ := ih
    cases hs <;> simp_all <;> omega

/-- Claim C7, counterexample: with `max_concurrent = 1`, the interleaving
acquire-increment-release-acquire-increment (the release window of the
first goroutine overlapping the admission of the second) reaches a state
with `current_connections = 2 > 1`, because the middleware frees the
semaphore slot before decrementing the counter. -/
theorem claim_C7_counterexample :
    GateReach 1 ⟨0, 1, 1, 1, 2⟩ ∧ 1 < (GateState.mk 0 1 1 1 2).conn := by
  refine ⟨?_, by decide⟩
  have h0 : GateReach 1 ⟨0, 0, 0, 0, 0⟩ := GateReach.init
  have h1 : GateReach 1 ⟨1, 0, 0, 1, 0⟩ :=
    GateReach.step _ _ h0 (GateStep.acquire ⟨0, 0, 0, 0, 0⟩ (by decide))
  have h2 : GateReach 1 ⟨0, 1, 0, 1, 1⟩ :=
    GateReach.step _ _ h1 (GateStep.incrConn 0 0 0 1 0)
  have h3 : GateReach 1 ⟨0, 0, 1, 0, 1⟩ :=
    GateReach.step _ _ h2 (GateStep.releaseSem 0 0 0 0 1)
  have h4 : GateReach 1 ⟨1, 0, 1, 1, 1⟩ :=
    GateReach.step _ _ h3 (GateStep.acquire ⟨0, 0, 1, 0, 1⟩ (by decide))
  exact GateReach.step _ _ h4 (GateStep.incrConn 0 0 1 1 1)

/-- Claim C7 (amended): in every reachable state,
`current_connections ≤ max_concurrent + R` where `R` is the number of
goroutines inside the release window (semaphore slot already freed,
counter not yet decremented); in particular the bound
`current_connections ≤ max_concurrent` holds whenever no goroutine is
mid-release. -/
theorem claim_C7_amended (cap : Nat) (s : GateState) (h : GateReach cap s) :
    s.conn ≤ cap + s.nReleased := by
  obtain ⟨h1, h2, h3⟩ := gateReach_inv h
  omega

/-- Witness for claim C7 (amended) at the initial state with capacity 1. -/
theorem claim_C7_witness :
    (GateState.mk 0 0 0 0 0).conn ≤ 1 + (GateState.mk 0 0 0 0 0).nReleased :=
  claim_C7_amended 1 ⟨0, 0, 0, 0, 0⟩ GateReach.init

/-! ## Claim C10 — the MCP server list -/

/-- Claim C10: for every chat request whose public model name is not the
search model, the constructed upstream request's `mcp_servers` field is
the one-element list containing the empty string; only for the search
model is it the one-element list `["deep-web-search"]`. -/
theorem claim_C10 (model chatID msgID datetime : String)
    (messages : List ChatMessage) :
    (model ≠ searchModelName →
      (buildUpstreamRequest model chatID msgID datetime messages).mcpServers = [""]) ∧
    (model = searchModelName →
      (buildUpstreamRequest model chatID msgID datetime messages).mcpServers =
        ["deep-web-search"]) := by
  constructor
  · intro h
    by_cases ht : model = thinkingModelName <;>
      simp [buildUpstreamRequest, modelFlags, ht, h]
  · intro h
    subst h
    rfl

/-- Witness for claim C10 at the default model name. -/
theorem claim_C10_witness :
    (buildUpstreamRequest "GLM-4.5" "chat-1" "msg-1" "2025-01-03 00:00:00" []).mcpServers =
      [""] :=
  (claim_C10 "GLM-4.5" "chat-1" "msg-1" "2025-01-03 00:00:00" []).1 (by decide)


/-! ## Translator invariants (claims C9, C1) -/

/-- The frames of the event branch of `processStreamLine` when no error
field is set. -/
lemma processStreamLine_event (mode : String) (st : TranslatorState) (u : UpstreamData)
    (he : hasUpstreamError u = false) :
    processStreamLine mode st (UpLine.event u) =
      ({ st with sentInitialAnswer := (spliceResult st u).2,
                 streamClosed := st.streamClosed || endedOf u },
       (spliceResult st u).1 ++ deltaFramesOf mode u ++ endFramesOf u) := by
  simp [processStreamLine, he]

/-- The read loop on a cons, from an open stream. -/
lemma runLines_cons_open (mode : String) (st : TranslatorState) (l : UpLine)
    (ls : List UpLine) (h : st.streamClosed = false) :
    runLines mode st (l :: ls) =
      ((runLines mode (processStreamLine mode st l).1 ls).1,
       (processStreamLine mode st l).2 ++
         (runLines mode (processStreamLine mode st l).1 ls).2) := by
  simp [runLines, h]

/-- A closed stream processes no further lines. -/
lemma runLines_of_closed (mode : String) (st : TranslatorState) (ls : List UpLine)
    (h : st.streamClosed = true) : runLines mode st ls = (st, []) := by
  cases ls with
  | nil => rfl
  | cons l ls => simp [runLines, h]

/-- The splice emits no `[DONE]` marker and no flush chunk. -/
lemma spliceResult_counts (st : TranslatorState) (u : UpstreamData) :
    List.countP isDoneMarker (spliceResult st u).1 = 0 ∧
    List.countP isThinkFlush (spliceResult st u).1 = 0 := by
  simp only [spliceResult]
  split_ifs <;> exact ⟨rfl, rfl⟩

/-- The delta emission emits no `[DONE]` marker and no flush chunk. -/
lemma deltaFramesOf_counts (mode : String) (u : UpstreamData) :
    List.countP isDoneMarker (deltaFramesOf mode u) = 0 ∧
    List.countP isThinkFlush (deltaFramesOf mode u) = 0 := by
  simp only [deltaFramesOf]
  split_ifs <;> exact ⟨rfl, rfl⟩

/-- The end frames: one `[DONE]` marker exactly when the done signal is
seen, never a flush chunk. -/
lemma endFramesOf_counts (u : UpstreamData) :
    List.countP isDoneMarker (endFramesOf u) = (if endedOf u then 1 else 0) ∧
    List.countP isThinkFlush (endFramesOf u) = 0 := by
  unfold endFramesOf
  split_ifs <;> exact ⟨rfl, rfl⟩

/-- No branch of `processStreamLine` assigns `isInThinkBlock` or
`bufferedThinkContent`. -/
lemma processStreamLine_think (mode : String) (st : TranslatorState) (l : UpLine) :
    (processStreamLine mode st l).1.isInThinkBlock = st.isInThinkBlock ∧
    (processStreamLine mode st l).1.bufferedThinkContent = st.bufferedThinkContent := by
  cases l with
  | notData raw => exact ⟨rfl, rfl⟩
  | emptyData => exact ⟨rfl, rfl⟩
  | malformed raw => exact ⟨rfl, rfl⟩
  | doneSentinel => exact ⟨rfl, rfl⟩
  | event u =>
    by_cases he : hasUpstreamError u
    · simp [processStreamLine, he]
    · rw [processStreamLine_event mode st u (by simpa using he)]
      exact ⟨rfl, rfl⟩

/-- The read loop preserves `isInThinkBlock` and `bufferedThinkContent`. -/
lemma runLines_think (mode : String) (ls : List UpLine) :
    ∀ st : TranslatorState,
      (runLines mode st ls).1.isInThinkBlock = st.isInThinkBlock ∧
      (runLines mode st ls).1.bufferedThinkContent = st.bufferedThinkContent := by
  induction ls with
  | nil => intro st; exact ⟨rfl, rfl⟩
  | cons l ls ih =>
    intro st
    by_cases hc : st.streamClosed = true
    · rw [runLines_of_closed mode st (l :: ls) hc]
      exact ⟨rfl, rfl⟩
    · rw [runLines_cons_open mode st l ls (by simpa using hc)]
      have hp := processStreamLine_think mode st l
      have hr := ih (processStreamLine mode st l).1
      exact ⟨hr.1.trans hp.1, hr.2.trans hp.2⟩

/-- A line processed from a state outside a think block emits no
buffered-thinking flush chunk. -/
lemma processStreamLine_noFlush (mode : String) (st : TranslatorState) (l : UpLine)
    (h : st.isInThinkBlock = false) :
    countThinkFlush (processStreamLine mode st l).2 = 0 := by
  cases l with
  | notData raw => rfl
  | emptyData => rfl
  | malformed raw => rfl
  | doneSentinel =>
    simp [processStreamLine, h, countThinkFlush, isThinkFlush]
  | event u =>
    by_cases he : hasUpstreamError u
    · simp [processStreamLine, he, countThinkFlush, isThinkFlush, finishChunk]
    · rw [processStreamLine_event mode st u (by simpa using he)]
      rw [countThinkFlush]
      simp only [List.countP_append]
      rw [(spliceResult_counts st u).2, (deltaFramesOf_counts mode u).2,
        (endFramesOf_counts u).2]

/-- The read loop started outside a think block emits no
buffered-thinking flush chunk. -/
lemma runLines_noFlush (mode : String) (ls : List UpLine) :
    ∀ st : TranslatorState, st.isInThinkBlock = false →
      countThinkFlush (runLines mode st ls).2 = 0 := by
  induction ls with
  | nil => intro st h; rfl
  | cons l ls ih =>
    intro st h
    by_cases hc : st.streamClosed = true
    · rw [runLines_of_closed mode st (l :: ls) hc]
      rfl
    · rw [runLines_cons_open mode st l ls (by simpa using hc)]
      have hp := processStreamLine_noFlush mode st l h
      have hpt := (processStreamLine_think mode st l).1
      have hr := ih (processStreamLine mode st l).1 (hpt.trans h)
      rw [countThinkFlush] at hp hr ⊢
      rw [List.countP_append, hp, hr]

/-- Claim C9: the streaming translator never assigns `isInThinkBlock` or
`bufferedThinkContent` — every line transition preserves them, so from the
initial state they stay `false` and `""` for the whole translation — and
consequently the buffered-thinking flush chunk (wire content
`"<think>" + buffer + "</think>"`) is never emitted by the streaming
path. -/
theorem claim_C9 (mode : String) (st : TranslatorState) (l : UpLine)
    (lines : List UpLine) :
    (processStreamLine mode st l).1.isInThinkBlock = st.isInThinkBlock ∧
    (processStreamLine mode st l).1.bufferedThinkContent = st.bufferedThinkContent ∧
    (runLines mode initialTranslatorState lines).1.isInThinkBlock = false ∧
    (runLines mode initialTranslatorState lines).1.bufferedThinkContent = "" ∧
    countThinkFlush (handleStreamResponse mode lines) = 0 := by
  have hp := processStreamLine_think mode st l
  have hr := runLines_think mode lines initialTranslatorState
  have h0 := runLines_noFlush mode lines initialTranslatorState rfl
  refine ⟨hp.1, hp.2, hr.1, hr.2, ?_⟩
  have hrb : (runLines mode initialTranslatorState lines).1.isInThinkBlock = false :=
    hr.1
  have hpost :
      (if (runLines mode initialTranslatorState lines).1.isInThinkBlock ∧
          (runLines mode initialTranslatorState lines).1.bufferedThinkContent ≠ "" then
        [Frame.thinkFlush (runLines mode initialTranslatorState lines).1.bufferedThinkContent]
      else []) = [] := by
    simp [hrb]
  rw [countThinkFlush] at h0 ⊢
  show List.countP isThinkFlush
      (openerFrame ::
        ((runLines mode initialTranslatorState lines).2 ++
          (if (runLines mode initialTranslatorState lines).1.isInThinkBlock ∧
              (runLines mode initialTranslatorState lines).1.bufferedThinkContent ≠ "" then
            [Frame.thinkFlush
              (runLines mode initialTranslatorState lines).1.bufferedThinkContent]
          else []))) = 0
  rw [hpost]
  simp [List.countP_cons, isThinkFlush, openerFrame, h0]

/-- A line processed from an open stream: if it closes the stream it emits
exactly one `[DONE]` marker and that marker is its last frame; otherwise
it emits no `[DONE]` marker. -/
lemma processStreamLine_done (mode : String) (st : TranslatorState) (l : UpLine)
    (h : st.streamClosed = false) :
    ((processStreamLine mode st l).1.streamClosed = true →
      countDone (processStreamLine mode st l).2 = 1 ∧
      (processStreamLine mode st l).2.getLast? = some Frame.doneMarker) ∧
    ((processStreamLine mode st l).1.streamClosed = false →
      countDone (processStreamLine mode st l).2 = 0) := by
  cases l with
  | notData raw =>
    refine ⟨fun hc => ?_, fun _ => rfl⟩
    simp [processStreamLine, h] at hc
  | emptyData =>
    refine ⟨fun hc => ?_, fun _ => rfl⟩
    simp [processStreamLine, h] at hc
  | malformed raw =>
    refine ⟨fun hc => ?_, fun _ => rfl⟩
    simp [processStreamLine, h] at hc
  | doneSentinel =>
    constructor
    · intro _
      constructor
      · rw [countDone]
        simp only [processStreamLine, List.countP_append]
        split <;> simp [isDoneMarker, List.countP_cons]
      · exact List.getLast?_concat _
    · intro hc
      simp [processStreamLine] at hc
  | event u =>
    by_cases he : hasUpstreamError u
    · constructor
      · intro _
        constructor
        · rw [countDone]
          simp [processStreamLine, he, List.countP_cons, isDoneMarker, finishChunk]
        · simp [processStreamLine, he]
      · intro hc
        simp [processStreamLine, he] at hc
    · have he' : hasUpstreamError u = false := by simpa using he
      rw [processStreamLine_event mode st u he']
      by_cases hd : endedOf u = true
      · have hend : endFramesOf u = [finishChunk, Frame.doneMarker] := by
          rw [endFramesOf, if_pos hd]
        constructor
        · intro _
          constructor
          · rw [countDone]
            simp only [List.countP_append]
            rw [(spliceResult_counts st u).1, (deltaFramesOf_counts mode u).1,
              (endFramesOf_counts u).1, if_pos hd]
          · rw [List.getLast?_append, hend]
            rfl
        · intro hc
          have hc2 : (st.streamClosed || endedOf u) = false := hc
          rw [hd] at hc2
          simp at hc2
      · have hd' : endedOf u = false := by simpa using hd
        constructor
        · intro hc
          have hc2 : (st.streamClosed || endedOf u) = true := hc
          rw [h, hd'] at hc2
          simp at hc2
        · intro _
          rw [countDone]
          simp only [List.countP_append]
          rw [(spliceResult_counts st u).1, (deltaFramesOf_counts mode u).1,
            (endFramesOf_counts u).1, if_neg (by simp [hd'])]

/-- The read loop from an open stream: if the run ends with the stream
closed it emitted exactly one `[DONE]` marker, as its last frame; if the
run ends with the stream still open (upstream EOF without any done
signal) it emitted no `[DONE]` marker at all. -/
lemma runLines_done (mode : String) (ls : List UpLine) :
    ∀ st : TranslatorState, st.streamClosed = false →
      ((runLines mode st ls).1.streamClosed = true →
        countDone (runLines mode st ls).2 = 1 ∧
        (runLines mode st ls).2.getLast? = some Frame.doneMarker) ∧
      ((runLines mode st ls).1.streamClosed = false →
        countDone (runLines mode st ls).2 = 0) := by
  induction ls with
  | nil =>
    intro st h
    refine ⟨fun hc => ?_, fun _ => rfl⟩
    have hc2 : st.streamClosed = true := hc
    rw [h] at hc2
    cases hc2
  | cons l ls ih =>
    intro st h
    rw [runLines_cons_open mode st l ls h]
    by_cases hsc : (processStreamLine mode st l).1.streamClosed = true
    · have hrest := runLines_of_closed mode (processStreamLine mode st l).1 ls hsc
      have hstep := (processStreamLine_done mode st l h).1 hsc
      rw [hrest]
      constructor
      · intro _
        constructor
        · rw [countDone, List.countP_append]
          rw [countDone] at hstep
          rw [hstep.1]
          rfl
        · rw [List.getLast?_append]
          rw [show (((processStreamLine mode st l).1, ([] : List Frame)).2 = []) from rfl]
          rw [List.getLast?_nil, Option.none_or]
          exact hstep.2
      · intro hc
        have hc2 : (processStreamLine mode st l).1.streamClosed = false := hc
        rw [hsc] at hc2
        cases hc2
    · have hso : (processStreamLine mode st l).1.streamClosed = false := by
        simpa using hsc
      have hz := (processStreamLine_done mode st l h).2 hso
      have hih := ih (processStreamLine mode st l).1 hso
      constructor
      · intro hc
        have h1 := hih.1 hc
        constructor
        · rw [countDone, List.countP_append]
          rw [countDone] at hz h1
          rw [hz, h1.1]
        · rw [List.getLast?_append, h1.2]
          rfl
      · intro hc
        have h0 := hih.2 hc
        rw [countDone, List.countP_append]
        rw [countDone] at hz h0
        rw [hz, h0]

/-- Claim C1, counterexample: an upstream stream consisting of a single
well-formed answer event and then EOF — no done flag, no `done` phase, no
upstream `[DONE]` sentinel — produces a streaming response with zero
occurrences of the terminal `data: [DONE]\n\n` line: `handleStreamResponse`
has no terminal flush after its read loop, so the claimed "exactly one
occurrence, even on EOF without a done signal" fails. -/
theorem claim_C1_counterexample :
    countDone (handleStreamResponse "think"
      [UpLine.event ⟨"chat:completion", ⟨"hi", "", "answer", false, none, none⟩, none⟩]) =
      0 ∧
    ¬ (handleStreamResponse "think"
      [UpLine.event ⟨"chat:completion", ⟨"hi", "", "answer", false, none, none⟩,
        none⟩]).getLast? = some Frame.doneMarker := by
  constructor
  · rfl
  · decide

/-- Claim C1 (amended): when the translator reaches a done signal
(upstream `[DONE]` sentinel, done flag or done phase, or an upstream error
event) the emitted frame list contains exactly one `data: [DONE]\n\n`
marker and it is the last frame; when the upstream body ends (EOF) without
any done signal — i.e. the run leaves `streamClosed` unset — the emitted
frame list contains no `[DONE]` marker at all. -/
theorem claim_C1_amended (mode : String) (lines : List UpLine) :
    ((runLines mode initialTranslatorState lines).1.streamClosed = true →
      countDone (handleStreamResponse mode lines) = 1 ∧
      (handleStreamResponse mode lines).getLast? = some Frame.doneMarker) ∧
    ((runLines mode initialTranslatorState lines).1.streamClosed = false →
      countDone (handleStreamResponse mode lines) = 0) := by
  have hrun := runLines_done mode lines initialTranslatorState rfl
  have hrb : (runLines mode initialTranslatorState lines).1.isInThinkBlock = false :=
    (runLines_think mode lines initialTranslatorState).1
  have hpost :
      (if (runLines mode initialTranslatorState lines).1.isInThinkBlock ∧
          (runLines mode initialTranslatorState lines).1.bufferedThinkContent ≠ "" then
        [Frame.thinkFlush (runLines mode initialTranslatorState lines).1.bufferedThinkContent]
      else []) = [] := by
    simp [hrb]
  have hshape : handleStreamResponse mode lines =
      openerFrame :: (runLines mode initialTranslatorState lines).2 := by
    show openerFrame ::
        ((runLines mode initialTranslatorState lines).2 ++
          (if (runLines mode initialTranslatorState lines).1.isInThinkBlock ∧
              (runLines mode initialTranslatorState lines).1.bufferedThinkContent ≠ "" then
            [Frame.thinkFlush
              (runLines mode initialTranslatorState lines).1.bufferedThinkContent]
          else [])) =
      openerFrame :: (runLines mode initialTranslatorState lines).2
    rw [hpost, List.append_nil]
  constructor
  · intro hc
    have h1 := hrun.1 hc
    constructor
    · rw [hshape, countDone, List.countP_cons]
      rw [countDone] at h1
      rw [h1.1]
      rfl
    · rw [hshape, show openerFrame :: (runLines mode initialTranslatorState lines).2 =
        [openerFrame] ++ (runLines mode initialTranslatorState lines).2 from rfl]
      rw [List.getLast?_append, h1.2]
      rfl
  · intro hc
    have h0 := hrun.2 hc
    rw [hshape, countDone, List.countP_cons]
    rw [countDone] at h0
    rw [h0]
    rfl

/-- Witness for claim C1 (amended): a stream consisting of the upstream
`[DONE]` sentinel alone closes the stream and yields exactly one terminal
marker, in last position. -/
theorem claim_C1_witness :
    countDone (handleStreamResponse "think" [UpLine.doneSentinel]) = 1 ∧
    (handleStreamResponse "think" [UpLine.doneSentinel]).getLast? =
      some Frame.doneMarker :=
  (claim_C1_amended "think" [UpLine.doneSentinel]).1 (by decide)

/-! ## Claims C4, C5 — content routing and round trip -/

/-- Concatenation distributes over frame-list append. -/
lemma concatFrames_append (a b : List Frame) :
    concatFrames (a ++ b) = concatFrames a ++ concatFrames b := by
  induction a with
  | nil =>
    rw [List.nil_append]
    exact (String.empty_append _).symm
  | cons f fs ih =>
    rw [List.cons_append, concatFrames, concatFrames, ih, String.append_assoc]

/-- The post-loop flush never fires (think-block invariant), so a
streaming response is the opener followed by the read-loop frames. -/
lemma handleStreamResponse_shape (mode : String) (lines : List UpLine) :
    handleStreamResponse mode lines =
      openerFrame :: (runLines mode initialTranslatorState lines).2 := by
  have hrb : (runLines mode initialTranslatorState lines).1.isInThinkBlock = false :=
    (runLines_think mode lines initialTranslatorState).1
  show openerFrame ::
      ((runLines mode initialTranslatorState lines).2 ++
        (if (runLines mode initialTranslatorState lines).1.isInThinkBlock ∧
            (runLines mode initialTranslatorState lines).1.bufferedThinkContent ≠ "" then
          [Frame.thinkFlush
            (runLines mode initialTranslatorState lines).1.bufferedThinkContent]
        else [])) =
    openerFrame :: (runLines mode initialTranslatorState lines).2
  rw [if_neg (by simp [hrb]), List.append_nil]

/-- On an answer event the splice does not fire (`edit_content` empty). -/
lemma spliceResult_answer (st : TranslatorState) (d : String) :
    spliceResult st (answerEvent d) = ([], st.sentInitialAnswer) := by
  simp [spliceResult, answerEvent]

/-- An answer event is not a done signal. -/
lemma endedOf_answer (d : String) : endedOf (answerEvent d) = false := rfl

/-- The delta frames of an answer event: one content chunk carrying the
delta unchanged (none when the delta is empty). -/
lemma deltaFramesOf_answer (mode d : String) (hd : d ≠ "") :
    deltaFramesOf mode (answerEvent d) =
      [Frame.chunk (contentDelta d) none] := by
  show (if d ≠ "" then
      if ("answer" : String) = "thinking" then
        if transformThinking mode d ≠ "" then
          [Frame.chunk (reasoningDelta (transformThinking mode d)) none]
        else []
      else if d ≠ "" then [Frame.chunk (contentDelta d) none] else []
    else []) = [Frame.chunk (contentDelta d) none]
  rw [if_pos hd, if_neg (show ¬ ("answer" : String) = "thinking" by decide), if_pos hd]

/-- The read loop over an answer-only synthesized stream emits content
chunks whose concatenated `delta.content` is the concatenation of the
upstream deltas. -/
lemma runLines_answer (mode : String) (ds : List String) :
    ∀ st : TranslatorState, st.streamClosed = false → st.isInThinkBlock = false →
      concatFrames (runLines mode st (answerLines ds)).2 = concatAll ds := by
  induction ds with
  | nil =>
    intro st h hi
    show concatFrames (runLines mode st [UpLine.doneSentinel]).2 = ""
    rw [runLines_cons_open mode st UpLine.doneSentinel [] h]
    have hfl : (processStreamLine mode st UpLine.doneSentinel).2 = [Frame.doneMarker] := by
      show (if st.isInThinkBlock ∧ st.bufferedThinkContent ≠ "" then
          [Frame.thinkFlush st.bufferedThinkContent] else []) ++ [Frame.doneMarker] =
        [Frame.doneMarker]
      rw [if_neg (by simp [hi]), List.nil_append]
    show concatFrames ((processStreamLine mode st UpLine.doneSentinel).2 ++
      (runLines mode (processStreamLine mode st UpLine.doneSentinel).1 []).2) = ""
    rw [hfl]
    rfl
  | cons d ds ih =>
    intro st h hi
    have hps : processStreamLine mode st (UpLine.event (answerEvent d)) =
        ({ st with sentInitialAnswer := (spliceResult st (answerEvent d)).2,
                   streamClosed := st.streamClosed || endedOf (answerEvent d) },
         (spliceResult st (answerEvent d)).1 ++ deltaFramesOf mode (answerEvent d) ++
           endFramesOf (answerEvent d)) :=
      processStreamLine_event mode st (answerEvent d) rfl
    have hclosed' :
        (processStreamLine mode st (UpLine.event (answerEvent d))).1.streamClosed = false := by
      rw [hps]
      show (st.streamClosed || endedOf (answerEvent d)) = false
      rw [endedOf_answer, Bool.or_false, h]
    have hthink' :
        (processStreamLine mode st (UpLine.event (answerEvent d))).1.isInThinkBlock = false :=
      (processStreamLine_think mode st (UpLine.event (answerEvent d))).1.trans hi
    have hframes :
        concatFrames (processStreamLine mode st (UpLine.event (answerEvent d))).2 = d := by
      rw [hps]
      show concatFrames ((spliceResult st (answerEvent d)).1 ++
        deltaFramesOf mode (answerEvent d) ++ endFramesOf (answerEvent d)) = d
      rw [spliceResult_answer, show endFramesOf (answerEvent d) = [] from rfl,
        List.append_nil]
      show concatFrames (([] : List Frame) ++ deltaFramesOf mode (answerEvent d)) = d
      rw [List.nil_append]
      by_cases hd : d = ""
      · subst hd
        rfl
      · rw [deltaFramesOf_answer mode d hd]
        show d ++ "" = d
        exact String.append_empty d
    show concatFrames
      (runLines mode st (UpLine.event (answerEvent d) :: answerLines ds)).2 = concatAll (d :: ds)
    rw [runLines_cons_open mode st _ _ h, concatFrames_append, hframes,
      ih (processStreamLine mode st (UpLine.event (answerEvent d))).1 hclosed' hthink']
    rfl


/-- The accumulation step on an answer event appends the delta unchanged. -/
lemma collectStep_answer (mode acc d : String) :
    collectStep mode acc (answerEvent d) = acc ++ d := by
  by_cases hd : d = ""
  · subst hd
    show acc = acc ++ ""
    rw [String.append_empty]
  · show (if d ≠ "" then
        if (if ("answer" : String) = "thinking" then transformThinking mode d else d) ≠ ""
        then acc ++ (if ("answer" : String) = "thinking" then transformThinking mode d else d)
        else acc
      else acc) = acc ++ d
    rw [if_neg (show ¬ ("answer" : String) = "thinking" by decide), if_pos hd, if_pos hd]

/-- The aggregation loop over an answer-only synthesized stream
accumulates exactly the concatenation of the upstream deltas. -/
lemma collectContent_answer (mode : String) (ds : List String) :
    ∀ acc : String, collectContent mode acc (answerLines ds) = acc ++ concatAll ds := by
  induction ds with
  | nil =>
    intro acc
    show collectContent mode acc [UpLine.doneSentinel] = acc ++ ""
    rw [String.append_empty]
    rfl
  | cons d ds ih =>
    intro acc
    have h1 : collectContent mode acc (UpLine.event (answerEvent d) :: answerLines ds) =
        collectContent mode (collectStep mode acc (answerEvent d)) (answerLines ds) := rfl
    show collectContent mode acc (UpLine.event (answerEvent d) :: answerLines ds) =
      acc ++ concatAll (d :: ds)
    rw [h1, collectStep_answer mode acc d, ih (acc ++ d),
      show concatAll (d :: ds) = d ++ concatAll ds from rfl, String.append_assoc]

/-- Claim C4: feeding a synthesized upstream SSE of `phase: "answer"`
deltas `d1, ..., dn` followed by the done marker yields, in streaming
mode, emitted frames whose concatenated `choices[0].delta.content` equals
`d1 ++ ... ++ dn`, and in non-streaming mode a single message whose
`choices[0].message.content` equals the same concatenation. -/
theorem claim_C4 (mode : String) (ds : List String) :
    concatFrames (handleStreamResponse mode (answerLines ds)) = concatAll ds ∧
    (handleNonStreamResponse mode (answerLines ds)).content = concatAll ds := by
  constructor
  · rw [handleStreamResponse_shape, concatFrames,
      show frameDeltaContent openerFrame = "" from rfl,
      runLines_answer mode ds initialTranslatorState rfl rfl, String.empty_append]
  · show collectContent mode "" (answerLines ds) = concatAll ds
    rw [collectContent_answer mode ds "", String.empty_append]

/-- Claim C5: for an upstream event with non-empty delta content and no
error field, processed by the streaming translator — if the phase is
`thinking`, the thinking transformer is applied and, when the result is
non-empty, a chunk carrying it in `reasoning_content` (not `content`) is
emitted; for any non-thinking phase, a chunk carrying the unmodified
delta in `content` is emitted. -/
theorem claim_C5 (mode : String) (st : TranslatorState) (u : UpstreamData)
    (he : hasUpstreamError u = false) (hdc : u.data.deltaContent ≠ "") :
    (u.data.phase = "thinking" →
      transformThinking mode u.data.deltaContent ≠ "" →
      Frame.chunk (reasoningDelta (transformThinking mode u.data.deltaContent)) none ∈
        (processStreamLine mode st (UpLine.event u)).2) ∧
    (¬ u.data.phase = "thinking" →
      Frame.chunk (contentDelta u.data.deltaContent) none ∈
        (processStreamLine mode st (UpLine.event u)).2) := by
  rw [processStreamLine_event mode st u he]
  constructor
  · intro hp ht
    have hd : deltaFramesOf mode u =
        [Frame.chunk (reasoningDelta (transformThinking mode u.data.deltaContent)) none] := by
      rw [deltaFramesOf, if_pos hdc, if_pos hp, if_pos ht]
    apply List.mem_append_left
    apply List.mem_append_right
    rw [hd]
    exact List.mem_singleton_self _
  · intro hp
    have hd : deltaFramesOf mode u =
        [Frame.chunk (contentDelta u.data.deltaContent) none] := by
      rw [deltaFramesOf, if_pos hdc, if_neg hp, if_pos hdc]
    apply List.mem_append_left
    apply List.mem_append_right
    rw [hd]
    exact List.mem_singleton_self _

/-- Witness for claim C5: a concrete answer event with delta `"hi"` emits
a chunk carrying `"hi"` in `content`. -/
theorem claim_C5_witness :
    Frame.chunk (contentDelta "hi") none ∈
      (processStreamLine "think" initialTranslatorState
        (UpLine.event ⟨"chat:completion", ⟨"hi", "x", "answer", false, none, none⟩,
          none⟩)).2 :=
  (claim_C5 "think" initialTranslatorState
    ⟨"chat:completion", ⟨"hi", "x", "answer", false, none, none⟩, none⟩
    rfl (by decide)).2 (by decide)

/-! ## Claim C8 — idempotence of the thinking transformer -/

/-- A prefix of `l` is a prefix of `l ++ u`. -/
lemma isPrefixOf_append (pat l u : List Char) (h : pat.isPrefixOf l = true) :
    pat.isPrefixOf (l ++ u) = true := by
  rw [ List.isPrefixOf_iff_prefix] at h ⊢
  exact h.trans (List.prefix_append l u)

/-- An occurrence in `l` is an occurrence in `l ++ u`. -/
lemma occurs_append_left (pat l u : List Char) (h : occurs pat l = true) :
    occurs pat (l ++ u) = true := by
  induction l with
  | nil => cases h
  | cons c cs ih =>
    rw [occurs, Bool.or_eq_true_iff] at h
    show (pat.isPrefixOf (c :: (cs ++ u)) || occurs pat (cs ++ u)) = true
    rcases h with h | h
    · rw [← List.cons_append, isPrefixOf_append pat (c :: cs) u h, Bool.true_or]
    · rw [ih h, Bool.or_true]

/-- An occurrence in `m` is an occurrence in `t ++ m`. -/
lemma occurs_append_right (pat t m : List Char) (h : occurs pat m = true) :
    occurs pat (t ++ m) = true := by
  induction t with
  | nil => exact h
  | cons x xs ih =>
    show (pat.isPrefixOf (x :: (xs ++ m)) || occurs pat (xs ++ m)) = true
    rw [ih, Bool.or_true]

/-- `rdropSpace l` is an initial segment of `l`. -/
lemma rdropSpace_decomp (l : List Char) : ∃ u, rdropSpace l ++ u = l := by
  obtain ⟨t, ht⟩ := List.dropWhile_suffix (l := l.reverse) goIsSpace
  refine ⟨t.reverse, ?_⟩
  have h2 := congrArg List.reverse ht
  rw [List.reverse_append, List.reverse_reverse] at h2
  exact h2

/-- `trimSpace l` is a contiguous segment of `l`. -/
lemma trimSpace_decomp (l : List Char) : ∃ t u, t ++ (trimSpace l ++ u) = l := by
  obtain ⟨t, ht⟩ := List.dropWhile_suffix (l := l) goIsSpace
  obtain ⟨u, hu⟩ := rdropSpace_decomp (l.dropWhile goIsSpace)
  exact ⟨t, u, by rw [show trimSpace l = rdropSpace (l.dropWhile goIsSpace) from rfl, hu, ht]⟩

/-- No occurrence in `l` means no occurrence in `trimSpace l`. -/
lemma occurs_trimSpace (pat l : List Char) (h : occurs pat l = false) :
    occurs pat (trimSpace l) = false := by
  cases ho : occurs pat (trimSpace l) with
  | false => rfl
  | true =>
    exfalso
    obtain ⟨t, u, htu⟩ := trimSpace_decomp l
    have h2 := occurs_append_right pat t _ (occurs_append_left pat _ u ho)
    rw [htu, h] at h2
    cases h2

/-- The head that `dropWhile` exposes does not satisfy the predicate. -/
lemma dropWhile_head_false (p : Char → Bool) (l : List Char) (c : Char) (cs : List Char)
    (h : l.dropWhile p = c :: cs) : p c = false := by
  induction l with
  | nil => cases h
  | cons a l2 ih =>
    rw [List.dropWhile_cons] at h
    by_cases hpa : p a = true
    · rw [if_pos hpa] at h
      exact ih h
    · rw [if_neg hpa] at h
      injection h with hac _
      rw [← hac]
      simpa using hpa

/-- `dropWhile` is idempotent. -/
lemma dropWhile_idem (p : Char → Bool) (l : List Char) :
    (l.dropWhile p).dropWhile p = l.dropWhile p := by
  cases h : l.dropWhile p with
  | nil => rfl
  | cons c cs =>
    rw [List.dropWhile_cons, if_neg]
    rw [dropWhile_head_false p l c cs h]
    simp

/-- `rdropSpace` is idempotent. -/
lemma rdropSpace_idem (l : List Char) : rdropSpace (rdropSpace l) = rdropSpace l := by
  simp only [rdropSpace, List.reverse_reverse]
  rw [dropWhile_idem]

/-- Dropping leading white space after a right trim of an already
left-trimmed list changes nothing. -/
lemma dropWhile_rdropSpace (l : List Char) :
    (rdropSpace (l.dropWhile goIsSpace)).dropWhile goIsSpace =
      rdropSpace (l.dropWhile goIsSpace) := by
  cases h : rdropSpace (l.dropWhile goIsSpace) with
  | nil => rfl
  | cons c cs =>
    obtain ⟨u, hu⟩ := rdropSpace_decomp (l.dropWhile goIsSpace)
    rw [h] at hu
    have hc : goIsSpace c = false :=
      dropWhile_head_false goIsSpace l c (cs ++ u) (by rw [← hu]; rfl)
    rw [List.dropWhile_cons, if_neg (by simp [hc])]

/-- `trimSpace` is idempotent. -/
lemma trimSpace_idem (l : List Char) : trimSpace (trimSpace l) = trimSpace l := by
  show rdropSpace ((rdropSpace (l.dropWhile goIsSpace)).dropWhile goIsSpace) =
    rdropSpace (l.dropWhile goIsSpace)
  rw [dropWhile_rdropSpace, rdropSpace_idem]

/-- `replaceAllL` is the identity when the pattern does not occur. -/
lemma replaceAllL_id (pat rep : List Char) :
    ∀ l : List Char, occurs pat l = false → replaceAllL pat rep l = l := by
  intro l
  induction l with
  | nil => intro _; rfl
  | cons c cs ih =>
    intro h
    rw [occurs, Bool.or_eq_false_iff] at h
    show (if pat.isPrefixOf (c :: cs) = true then
        rep ++ replaceAllAux pat rep (pat.length - 1) cs
      else c :: replaceAllAux pat rep 0 cs) = c :: cs
    rw [if_neg (by simp [h.1])]
    rw [show replaceAllAux pat rep 0 cs = replaceAllL pat rep cs from rfl, ih h.2]

/-- `removeSummaryL` is the identity when `<summary>` does not occur. -/
lemma removeSummaryL_id :
    ∀ l : List Char, occurs ("<summary>".data) l = false → removeSummaryL l = l := by
  intro l
  induction l with
  | nil => intro _; rfl
  | cons c cs ih =>
    intro h
    rw [occurs, Bool.or_eq_false_iff] at h
    show (if ("<summary>".data).isPrefixOf (c :: cs) = true then
        (match idxAfter ("</summary>".data) (cs.drop 8) with
          | some n => removeSummaryAux (8 + n) cs
          | none => c :: removeSummaryAux 0 cs)
      else c :: removeSummaryAux 0 cs) = c :: cs
    rw [if_neg (by simp [h.1])]
    rw [show removeSummaryAux 0 cs = removeSummaryL cs from rfl, ih h.2]

/-- `replaceDetailsOpenL` is the identity when `<details` does not occur. -/
lemma replaceDetailsOpenL_id (rep : List Char) :
    ∀ l : List Char, occurs ("<details".data) l = false →
      replaceDetailsOpenL rep l = l := by
  intro l
  induction l with
  | nil => intro _; rfl
  | cons c cs ih =>
    intro h
    rw [occurs, Bool.or_eq_false_iff] at h
    show (if ("<details".data).isPrefixOf (c :: cs) = true then
        (match idxAfterGt (cs.drop 7) with
          | some n => rep ++ replaceDetailsAux rep (7 + n) cs
          | none => c :: replaceDetailsAux rep 0 cs)
      else c :: replaceDetailsAux rep 0 cs) = c :: cs
    rw [if_neg (by simp [h.1])]
    rw [show replaceDetailsAux rep 0 cs = replaceDetailsOpenL rep cs from rfl, ih h.2]

/-- On an input free of all the rewritten patterns, the thinking
transformer reduces to `trimSpace`. -/
lemma transformThinkingL_eq_trim (mode : String) (l : List Char)
    (h1 : occurs ("<summary>".data) l = false)
    (h2 : occurs ("</thinking>".data) l = false)
    (h3 : occurs ("<Full>".data) l = false)
    (h4 : occurs ("</Full>".data) l = false)
    (h5 : occurs ("<details".data) l = false)
    (h6 : occurs ("</details>".data) l = false)
    (h7 : occurs ("\n> ".data) l = false)
    (h8 : ("> ".data).isPrefixOf (trimSpace l) = false) :
    transformThinkingL mode l = trimSpace l := by
  have hd5 : occurs ("<details".data) (trimSpace l) = false := occurs_trimSpace _ _ h5
  have hd6 : occurs ("</details>".data) (trimSpace l) = false := occurs_trimSpace _ _ h6
  have hd7 : occurs ("\n> ".data) (trimSpace l) = false := occurs_trimSpace _ _ h7
  have e6 : (if mode = "think" then
        replaceAllL ("</details>".data) ("</think>".data)
          (replaceDetailsOpenL ("<think>".data) (trimSpace l))
      else if mode = "strip" then
        replaceAllL ("</details>".data) [] (replaceDetailsOpenL [] (trimSpace l))
      else trimSpace l) = trimSpace l := by
    split_ifs
    · rw [replaceDetailsOpenL_id _ _ hd5, replaceAllL_id _ _ _ hd6]
    · rw [replaceDetailsOpenL_id _ _ hd5, replaceAllL_id _ _ _ hd6]
    · rfl
  show trimSpace
      (replaceAllL ("\n> ".data) ("\n".data)
        (trimPrefixL ("> ".data)
          (if mode = "think" then
            replaceAllL ("</details>".data) ("</think>".data)
              (replaceDetailsOpenL ("<think>".data)
                (trimSpace
                  (replaceAllL ("</Full>".data) []
                    (replaceAllL ("<Full>".data) []
                      (replaceAllL ("</thinking>".data) [] (removeSummaryL l))))))
          else if mode = "strip" then
            replaceAllL ("</details>".data) []
              (replaceDetailsOpenL []
                (trimSpace
                  (replaceAllL ("</Full>".data) []
                    (replaceAllL ("<Full>".data) []
                      (replaceAllL ("</thinking>".data) [] (removeSummaryL l))))))
          else
            trimSpace
              (replaceAllL ("</Full>".data) []
                (replaceAllL ("<Full>".data) []
                  (replaceAllL ("</thinking>".data) [] (removeSummaryL l))))))) =
    trimSpace l
  rw [removeSummaryL_id l h1, replaceAllL_id _ _ l h2, replaceAllL_id _ _ l h3,
    replaceAllL_id _ _ l h4, e6, trimPrefixL, if_neg (by simp [h8]),
    replaceAllL_id _ _ _ hd7, trimSpace_idem]

/-- Claim C8: the thinking transformer is idempotent on every input that
contains no `<summary>` span, no `<details` opener and no `</details>`
closer, none of the literals `</thinking>`, `<Full>`, `</Full>`, no
`"\n> "` line prefix, and whose trimmed form does not start with `"> "`. -/
theorem claim_C8 (mode : String) (s : String)
    (h1 : occurs ("<summary>".data) s.data = false)
    (h2 : occurs ("</thinking>".data) s.data = false)
    (h3 : occurs ("<Full>".data) s.data = false)
    (h4 : occurs ("</Full>".data) s.data = false)
    (h5 : occurs ("<details".data) s.data = false)
    (h6 : occurs ("</details>".data) s.data = false)
    (h7 : occurs ("\n> ".data) s.data = false)
    (h8 : ("> ".data).isPrefixOf (trimSpace s.data) = false) :
    transformThinking mode (transformThinking mode s) = transformThinking mode s := by
  have ht := transformThinkingL_eq_trim mode s.data h1 h2 h3 h4 h5 h6 h7 h8
  have hs : transformThinking mode s = String.mk (trimSpace s.data) := by
    rw [transformThinking, ht]
  rw [hs, transformThinking]
  show String.mk (transformThinkingL mode (trimSpace s.data)) =
    String.mk (trimSpace s.data)
  rw [transformThinkingL_eq_trim mode (trimSpace s.data)
      (occurs_trimSpace _ _ h1) (occurs_trimSpace _ _ h2) (occurs_trimSpace _ _ h3)
      (occurs_trimSpace _ _ h4) (occurs_trimSpace _ _ h5) (occurs_trimSpace _ _ h6)
      (occurs_trimSpace _ _ h7) (by rw [trimSpace_idem]; exact h8),
    trimSpace_idem]

/-- Witness for claim C8 on a concrete two-line input under the `think`
mode. -/
theorem claim_C8_witness :
    transformThinking "think" (transformThinking "think" "hello\nworld") =
      transformThinking "think" "hello\nworld" :=
  claim_C8 "think" "hello\nworld" (by decide) (by decide) (by decide) (by decide)
    (by decide) (by decide) (by decide) (by decide)
